import Mathlib

/-!
The index binding of guitar (`src/index.cpp`).

A shallow embedding of the `Index` class of the guitar package, the R binding of the
libgit2 index.  The methods of `src/index.cpp` are translated one by one; the native
library they call is a parameter (`Native`), and a reference model of it, written from the
specification, is used where a property depends on what the native index does.
-/

namespace Guitar

/-! ## Host values -/

/-- A C string body: the bytes before the terminator, one list element per byte. -/
abbrev Bytes := List Nat

/-- The raw object id of libgit2 (`git_oid`), a sequence of bytes. -/
abbrev git_oid := List Nat

/-- The host values (`SEXP`) an external entry can hold that the embedding models: `NULL`,
a character vector of length one, an integer vector of length one (a 32-bit signed host
integer) and a reference to an `OID` object.  Other host types are not modelled. -/
inductive SEXP where
  | null
  | str (s : Bytes)
  | int (v : Int)
  | oid (id : git_oid)
  deriving DecidableEq, Repr

/-- The exceptions the methods raise: `Rcpp::exception(msg)`, `GitException(msg)`, and the
two exceptions of the Rcpp accessors (`Rcpp::not_compatible` of a failed conversion,
`Rcpp::index_out_of_bounds` of a lookup by a name that is absent). -/
inductive Exn where
  | rcpp (msg : String)
  | git (msg : String)
  | not_compatible
  | index_out_of_bounds
  deriving DecidableEq, Repr

/-- An external entry, `Rcpp::List el(s_entry)`: a list of named elements, in order.
Names may repeat. -/
abbrev RList := List (String × SEXP)

/-- The method `el.containsElementNamed(name)`. -/
def containsElementNamed (el : RList) (name : String) : Bool :=
  el.any (fun p => p.1 == name)

/-- The accessor `el[name]`: the first element with that name; a name that is absent raises
`index_out_of_bounds`. -/
def RList.get (el : RList) (name : String) : Except Exn SEXP :=
  match el.find? (fun p => p.1 == name) with
  | some p => .ok p.2
  | none => .error .index_out_of_bounds

/-- The C function `strlen`: the number of bytes before the first NUL. -/
def strlen (s : Bytes) : Nat := (s.takeWhile (fun b => b != 0)).length

/-- The C function `strcpy`: the bytes copied, those before the first NUL. -/
def strcpy (s : Bytes) : Bytes := s.takeWhile (fun b => b != 0)

/-- The conversion `std::string path = el["path"]` (`Rcpp::as<std::string>`): a character
vector of length one gives its C string; any other modelled value is not compatible. -/
def as_string : SEXP → Except Exn Bytes
  | .str s => .ok (strcpy s)
  | _ => .error .not_compatible

/-- The conversion `int mode = el["mode"]` (`Rcpp::as<int>`): an integer vector of length
one gives its value; any other modelled value is not compatible. -/
def as_int : SEXP → Except Exn Int
  | .int v => .ok v
  | _ => .error .not_compatible

/-- Modelled from the spec: `OID::from_sexp` (declared in `oid.h`, defined outside
`src/`).  The object id of an entry is the fixed-length hash held by the `OID` reference;
a value that is no `OID` reference is malformed and is refused. -/
def OID.from_sexp : SEXP → Except Exn git_oid
  | .oid id => .ok id
  | _ => .error .not_compatible

/-- Modelled from the spec: `OID::create` (declared in `oid.h`, defined outside `src/`):
the `OID` reference holding a copy of the given object id. -/
def OID.create (id : git_oid) : SEXP := .oid id

/-! ## Machine integers -/

/-- Conversion to a 32-bit signed `int` (two's complement wrap). -/
def toInt32 (n : Int) : Int := (n + 2 ^ 31) % 2 ^ 32 - 2 ^ 31

/-- Conversion to `uint32_t`. -/
def toUInt32 (n : Int) : Nat := (n % 2 ^ 32).toNat

/-- Conversion to `uint16_t`. -/
def toUInt16 (n : Int) : Nat := (n % 2 ^ 16).toNat

/-- The C operator `&` on two `int` operands, on their two's complement bit patterns. -/
def int_and (a b : Int) : Int := toInt32 (Int.ofNat (toUInt32 a &&& toUInt32 b))

/-- The libgit2 constant `GIT_IDXENTRY_NAMEMASK` (`0x0fff`). -/
def GIT_IDXENTRY_NAMEMASK : Int := 0x0fff

/-- The libgit2 constant `GIT_IDXENTRY_STAGEMASK` (`0x3000`). -/
def GIT_IDXENTRY_STAGEMASK : Nat := 0x3000

/-- The libgit2 constant `GIT_IDXENTRY_STAGESHIFT`. -/
def GIT_IDXENTRY_STAGESHIFT : Nat := 12

/-! ## Native entries -/

/-- The libgit2 struct `git_index_time`. -/
structure git_index_time where
  seconds : Int
  nanoseconds : Nat
  deriving DecidableEq, Repr

/-- The libgit2 struct `git_index_entry`; `path` is the C string the pointer refers to. -/
structure git_index_entry where
  ctime : git_index_time
  mtime : git_index_time
  dev : Nat
  ino : Nat
  mode : Nat
  uid : Nat
  gid : Nat
  file_size : Nat
  id : git_oid
  flags : Nat
  flags_extended : Nat
  path : Bytes
  deriving DecidableEq, Repr

/-- The entry after `memset(e, 0, sizeof(git_index_entry))`: every field zero, the path
pointer null (no bytes), the object id all zero bytes. -/
def git_index_entry.zero : git_index_entry :=
  { ctime := ⟨0, 0⟩, mtime := ⟨0, 0⟩, dev := 0, ino := 0, mode := 0, uid := 0, gid := 0,
    file_size := 0, id := List.replicate 20 0, flags := 0, flags_extended := 0, path := [] }

/-- The stage of a native entry, libgit2's `GIT_IDXENTRY_STAGE`. -/
def git_index_entry.stage (e : git_index_entry) : Nat :=
  (e.flags &&& GIT_IDXENTRY_STAGEMASK) >>> GIT_IDXENTRY_STAGESHIFT

/-! ## The native library -/

/-- The functions of libgit2 that `src/index.cpp` calls, over a native index state `σ` and
native trees `τ`, together with the two other things the file takes from outside:
`Tree::from_sexp` and the allocator.  A function that changes the index returns the new
state next to its status. -/
structure Native (σ τ : Type) where
  git_index_read : σ → Int → Int × σ
  git_index_write : σ → Int × σ
  git_index_read_tree : σ → τ → Int × σ
  git_index_write_tree : σ → Int × git_oid × σ
  git_index_entrycount : σ → Nat
  git_index_clear : σ → Int × σ
  git_index_add : σ → git_index_entry → Int × σ
  git_index_add_bypath : σ → Bytes → Int × σ
  git_index_remove_bypath : σ → Bytes → Int × σ
  git_index_remove_directory : σ → Bytes → Int → Int × σ
  git_index_get_byindex : σ → Nat → Option git_index_entry
  git_index_get_bypath : σ → Bytes → Int → Option git_index_entry
  Tree_from_sexp : SEXP → Except Exn τ
  sizeof_entry_internal : Nat
  malloc : Nat → Bool

variable {σ τ : Type}

/-! ## The methods of `Index` -/

/-- The method `Index::read()`: it takes no argument and passes the literal `0` as the
`force` argument of `git_index_read`. -/
def Index.read (N : Native σ τ) (ix : σ) : Except Exn SEXP × σ :=
  let result := N.git_index_read ix 0
  if result.1 ≠ 0 then (.error (.git "reading index"), result.2)
  else (.ok .null, result.2)

/-- The method `Index::write()`. -/
def Index.write (N : Native σ τ) (ix : σ) : Except Exn SEXP × σ :=
  let result := N.git_index_write ix
  if result.1 ≠ 0 then (.error (.git "writing index"), result.2)
  else (.ok .null, result.2)

/-- The method `Index::read_tree(_tree)`. -/
def Index.read_tree (N : Native σ τ) (ix : σ) (_tree : SEXP) : Except Exn Unit × σ :=
  match N.Tree_from_sexp _tree with
  | .error x => (.error x, ix)
  | .ok tree =>
    let err := N.git_index_read_tree ix tree
    if err.1 ≠ 0 then (.error (.git "reading index tree"), err.2)
    else (.ok (), err.2)

/-- The method `Index::write_tree()`. -/
def Index.write_tree (N : Native σ τ) (ix : σ) : Except Exn SEXP × σ :=
  let err := N.git_index_write_tree ix
  if err.1 ≠ 0 then (.error (.git "writing index tree"), err.2.2)
  else (.ok (OID.create err.2.1), err.2.2)

/-- The method `Index::entrycount()`. -/
def Index.entrycount (N : Native σ τ) (ix : σ) : Nat :=
  N.git_index_entrycount ix

/-- The method `Index::clear()`.  `git_index_clear` returns an `int` status in the libgit2
releases that have the two-argument `git_index_read` called by `Index::read`; the method
calls it as a statement and does not look at the status. -/
def Index.clear (N : Native σ τ) (ix : σ) : Except Exn Unit × σ :=
  (.ok (), (N.git_index_clear ix).2)

/-- The argument of `malloc` in `Index::add`, `sizeof(entry_internal) + p_len + 2`,
computed in a 64-bit `size_t`. -/
def Index.add_size (N : Native σ τ) (p_len : Int) : Nat :=
  (((N.sizeof_entry_internal : Int) + p_len + 2) % 2 ^ 64).toNat

/-- The first part of `Index::add(s_entry)`, up to `e->id = *oid`: the native entry built
from the external one, or the exception raised on the way.  The assignments to the fields
of the zeroed entry are gathered in two record updates; the conversions that can raise are
kept in the order of the source. -/
def Index.add_entry (N : Native σ τ) (el : RList) : Except Exn git_index_entry := do
  let _ ← (if !containsElementNamed el "path" || !containsElementNamed el "oid" then
      throw (.rcpp "index entry must contain at least a path and oid")
    else pure ())
  let path ← el.get "path" >>= as_string
  let p_len : Int := toInt32 (strlen path)
  let mode : Int := 33188
  let s_oid ← el.get "oid"
  let oid ← OID.from_sexp s_oid
  let mode ← (if containsElementNamed el "mode" then el.get "mode" >>= as_int else pure mode)
  let _ ← (if !N.malloc (Index.add_size N p_len) then
      throw (.rcpp "cannot allocate index entry object")
    else pure ())
  let e : git_index_entry :=
    { git_index_entry.zero with
      path := strcpy path
      mode := toUInt32 mode
      flags := toUInt16 (int_and p_len GIT_IDXENTRY_NAMEMASK) }
  let uid ← (if containsElementNamed el "uid" then do
      let v ← el.get "uid" >>= as_int
      pure (toUInt32 v)
    else pure e.uid)
  let gid ← (if containsElementNamed el "gid" then do
      let v ← el.get "gid" >>= as_int
      pure (toUInt32 v)
    else pure e.gid)
  pure { e with uid := uid, gid := gid, id := oid }

/-- The method `Index::add(s_entry)`: the entry is built, then handed to `git_index_add`. -/
def Index.add (N : Native σ τ) (ix : σ) (s_entry : RList) : Except Exn Unit × σ :=
  match Index.add_entry N s_entry with
  | .error x => (.error x, ix)
  | .ok e =>
    let err := N.git_index_add ix e
    if err.1 ≠ 0 then (.error (.git "adding an index entry"), err.2)
    else (.ok (), err.2)

/-- The method `Index::add_by_path(path)`. -/
def Index.add_by_path (N : Native σ τ) (ix : σ) (path : Bytes) : Except Exn Unit × σ :=
  let err := N.git_index_add_bypath ix path
  if err.1 ≠ 0 then (.error (.git "add to index by path"), err.2)
  else (.ok (), err.2)

/-- The method `Index::remove_by_path(path)`. -/
def Index.remove_by_path (N : Native σ τ) (ix : σ) (path : Bytes) : Except Exn Unit × σ :=
  let err := N.git_index_remove_bypath ix path
  if err.1 ≠ 0 then (.error (.git "remove form index by path"), err.2)
  else (.ok (), err.2)

/-- The method `Index::remove_directory(path, stage)`. -/
def Index.remove_directory (N : Native σ τ) (ix : σ) (path : Bytes) (stage : Int) :
    Except Exn Unit × σ :=
  let err := N.git_index_remove_directory ix path stage
  if err.1 ≠ 0 then (.error (.git "remove directory from index"), err.2)
  else (.ok (), err.2)

/-! ## The entry codec -/

/-- The values of the list `IndexEntry::create` returns.  `datetime s n` is the
`Rcpp::Datetime` of the double `(double) s + (double) n / 1000000000.0` and `dbl v` the
double `(double) v`: both are kept as their integer operands, binary floating point not
being modelled (`datetime 0 0` and `dbl 0` are the double zero).  `num v` is the number
wrapped from an unsigned 16- or 32-bit field, which holds `v` exactly. -/
inductive RValue where
  | datetime (seconds : Int) (nanoseconds : Nat)
  | dbl (v : Nat)
  | num (v : Nat)
  | sexp (s : SEXP)
  deriving DecidableEq, Repr

/-- The function `IndexEntry::index_time`. -/
def IndexEntry.index_time (time : git_index_time) : RValue :=
  .datetime time.seconds time.nanoseconds

/-- The function `IndexEntry::create`: the named list, in the order of the source. -/
def IndexEntry.create (entry : git_index_entry) : List (String × RValue) :=
  let oid := OID.create entry.id
  [("ctime", IndexEntry.index_time entry.ctime),
   ("mtime", IndexEntry.index_time entry.mtime),
   ("dev", .num entry.dev),
   ("ino", .num entry.ino),
   ("mode", .num entry.mode),
   ("uid", .num entry.uid),
   ("gid", .num entry.gid),
   ("file_size", .dbl entry.file_size),
   ("oid", .sexp oid),
   ("flags", .num entry.flags),
   ("flags_extended", .num entry.flags_extended),
   ("path", .sexp (.str (strcpy entry.path)))]

/-- The method `Index::get_by_index(n)`. -/
def Index.get_by_index (N : Native σ τ) (ix : σ) (n : Nat) :
    Except Exn (List (String × RValue)) :=
  match N.git_index_get_byindex ix n with
  | none => .error (.git "get by index")
  | some result => .ok (IndexEntry.create result)

/-- The method `Index::get_by_path(path, stage)`. -/
def Index.get_by_path (N : Native σ τ) (ix : σ) (path : Bytes) (stage : Int) :
    Except Exn (List (String × RValue)) :=
  match N.git_index_get_bypath ix path stage with
  | none => .error (.git "get by path")
  | some result => .ok (IndexEntry.create result)

/-- The element of a returned list with the given label, if there is one. -/
def field (l : List (String × RValue)) (name : String) : Option RValue :=
  (l.find? (fun p => p.1 == name)).map Prod.snd

/-- The value of the first element with the given name, if there is one: what `el[name]`
reads, and none exactly when `containsElementNamed` is false. -/
def RList.lookup (el : RList) (name : String) : Option SEXP :=
  (el.find? (fun p => p.1 == name)).map Prod.snd

/-- The entry `Index::add` builds from a path, an object id and the three optional
integers. -/
def built (p : Bytes) (o : git_oid) (m u g : Option Int) : git_index_entry :=
  { git_index_entry.zero with
    path := strcpy (strcpy p)
    mode := toUInt32 (m.getD 33188)
    flags := toUInt16 (int_and (toInt32 (strlen (strcpy p))) GIT_IDXENTRY_NAMEMASK)
    uid := toUInt32 (u.getD 0)
    gid := toUInt32 (g.getD 0)
    id := o }







/-! ## The reference model of the native index -/

/-- Modelled from the spec: the order of paths in the native index (libgit2, outside
`src/`), byte by byte as `strcmp` compares them, a proper beginning of a path before the
path itself. -/
def path_lt : Bytes → Bytes → Bool
  | [], [] => false
  | [], _ :: _ => true
  | _ :: _, [] => false
  | a :: as, b :: bs => decide (a < b) || (a == b && path_lt as bs)

/-- The stage held in a flags word, libgit2's `GIT_IDXENTRY_STAGE`. -/
def stage_of_flags (flags : Nat) : Nat :=
  (flags &&& GIT_IDXENTRY_STAGEMASK) >>> GIT_IDXENTRY_STAGESHIFT

/-- Modelled from the spec: the strict order on the keys (path, stage) of the native index
(libgit2, outside `src/`): "strict ascending order by (path, stage)". -/
def key_lt (a b : Bytes × Nat) : Bool :=
  path_lt a.1 b.1 || (a.1 == b.1 && decide (a.2 < b.2))

/-- The key (path, stage) of a native entry. -/
def git_index_entry.key (e : git_index_entry) : Bytes × Nat :=
  (e.path, stage_of_flags e.flags)

/-- Modelled from the spec: the insertion `git_index_add` (libgit2, outside `src/`)
performs on the entries: "inserts or replaces (by path+stage key) maintaining sort
order". -/
def Spec.insert (e : git_index_entry) : List git_index_entry → List git_index_entry
  | [] => [e]
  | x :: xs =>
    if key_lt e.key x.key then e :: x :: xs
    else if key_lt x.key e.key then x :: Spec.insert e xs
    else e :: xs

/-- Modelled from the spec: `git_index_add` (libgit2, outside `src/`), on an index held as
the list of its entries; it reports success. -/
def Spec.git_index_add (ix : List git_index_entry) (e : git_index_entry) :
    Int × List git_index_entry :=
  (0, Spec.insert e ix)

/-- Modelled from the spec: `git_index_get_byindex` (libgit2, outside `src/`): "the n-th
entry in sorted order (0-based)", none (a null pointer) "if n >= entry_count()". -/
def Spec.git_index_get_byindex (ix : List git_index_entry) (n : Nat) :
    Option git_index_entry :=
  ix[n]?

/-- Modelled from the spec: `git_index_entrycount` (libgit2, outside `src/`): "number of
entries currently held". -/
def Spec.git_index_entrycount (ix : List git_index_entry) : Nat :=
  ix.length

/-- The native library whose index is the reference model: the three functions above over
the list of entries, everything else taken from `rest`. -/
def Spec.native (rest : Native (List git_index_entry) τ) : Native (List git_index_entry) τ :=
  { rest with
    git_index_add := Spec.git_index_add
    git_index_get_byindex := Spec.git_index_get_byindex
    git_index_entrycount := Spec.git_index_entrycount }

/-- A native library in which every call reports success and changes nothing, every lookup
finds nothing and every allocation succeeds. -/
def Native.inert (σ : Type) : Native σ Unit :=
  { git_index_read := fun ix _ => (0, ix)
    git_index_write := fun ix => (0, ix)
    git_index_read_tree := fun ix _ => (0, ix)
    git_index_write_tree := fun ix => (0, List.replicate 20 0, ix)
    git_index_entrycount := fun _ => 0
    git_index_clear := fun ix => (0, ix)
    git_index_add := fun ix _ => (0, ix)
    git_index_add_bypath := fun ix _ => (0, ix)
    git_index_remove_bypath := fun ix _ => (0, ix)
    git_index_remove_directory := fun ix _ _ => (0, ix)
    git_index_get_byindex := fun _ _ => none
    git_index_get_bypath := fun _ _ _ => none
    Tree_from_sexp := fun _ => .ok ()
    sizeof_entry_internal := 80
    malloc := fun _ => true }

/-- A native call with its arguments, as a recording library logs it. -/
inductive Call where
  | read (force : Int)
  | write
  | read_tree
  | write_tree
  | clear
  | add (e : git_index_entry)
  | add_bypath (path : Bytes)
  | remove_bypath (path : Bytes)
  | remove_directory (path : Bytes) (stage : Int)
  deriving DecidableEq, Repr

/-- A native library that does nothing but log the calls it receives, the latest first,
and report the given status for each. -/
def Native.recording (status : Int) : Native (List Call) Unit :=
  { Native.inert (List Call) with
    git_index_read := fun log force => (status, .read force :: log)
    git_index_write := fun log => (status, .write :: log)
    git_index_read_tree := fun log _ => (status, .read_tree :: log)
    git_index_write_tree := fun log => (status, List.replicate 20 0, .write_tree :: log)
    git_index_clear := fun log => (status, .clear :: log)
    git_index_add := fun log e => (status, .add e :: log)
    git_index_add_bypath := fun log p => (status, .add_bypath p :: log)
    git_index_remove_bypath := fun log p => (status, .remove_bypath p :: log)
    git_index_remove_directory := fun log p s => (status, .remove_directory p s :: log) }

/-- The index after a sequence of `Index::add` calls, a call that raises leaving it as the
native library left it. -/
def Index.add_all (N : Native σ τ) (ix : σ) (els : List RList) : σ :=
  els.foldl (fun s el => (Index.add N s el).2) ix

/-- The key (path, stage) read off the external form of an entry: its `path` element and
the stage bits of its `flags` element. -/
def external_key (l : List (String × RValue)) : Option (Bytes × Nat) :=
  match field l "path", field l "flags" with
  | some (.sexp (.str p)), some (.num f) => some (p, stage_of_flags f)
  | _, _ => none

/-- The labels of a returned list, in order. -/
def labels (l : List (String × RValue)) : List String := l.map Prod.fst

/-- The sort invariant of the index: strict ascending order by (path, stage). -/
def Sorted (ix : List git_index_entry) : Prop :=
  ix.Pairwise (fun a b => key_lt a.key b.key = true)

/-- Every path held in the index is a C string body: it has no NUL byte. -/
def PathsClean (ix : List git_index_entry) : Prop :=
  ∀ e ∈ ix, strcpy e.path = e.path

/-! ## Auxiliary facts -/

theorem contains_eq (el : RList) (name : String) :
    containsElementNamed el name = (el.lookup name).isSome := by
  induction el with
  | nil => rfl
  | cons a as ih =>
    simp only [containsElementNamed, RList.lookup, List.any_cons, List.find?_cons] at ih ⊢
    cases h : (a.1 == name) <;> simp [ih]

theorem get_eq (el : RList) (name : String) :
    el.get name = match el.lookup name with
      | some v => .ok v
      | none => .error .index_out_of_bounds := by
  unfold RList.get RList.lookup
  cases el.find? (fun p => p.1 == name) <;> rfl

theorem toUInt32_zero : toUInt32 0 = 0 := by decide

theorem add_entry_ok (N : Native σ τ) (el : RList) (p : Bytes) (o : git_oid)
    (m u g : Option Int)
    (hp : el.lookup "path" = some (.str p)) (ho : el.lookup "oid" = some (.oid o))
    (hm : el.lookup "mode" = m.map SEXP.int) (hu : el.lookup "uid" = u.map SEXP.int)
    (hg : el.lookup "gid" = g.map SEXP.int)
    (ha : N.malloc (Index.add_size N (toInt32 (strlen (strcpy p)))) = true) :
    Index.add_entry N el = .ok (built p o m u g) := by
  unfold Index.add_entry
  simp only [contains_eq, get_eq, hp, ho, hm, hu, hg]
  cases m <;> cases u <;> cases g <;>
    simp [as_string, as_int, OID.from_sexp, bind, Except.bind, pure, Except.pure, ha, built,
      git_index_entry.zero, toUInt32_zero]

theorem option_cases {α : Type} (x : Option α) : x = none ∨ ∃ v, x = some v := by
  cases x
  · exact Or.inl rfl
  · exact Or.inr ⟨_, rfl⟩

theorem as_int_int (v : Int) : as_int (.int v) = .ok v := rfl

theorem opt_int_cases (x : Option SEXP) :
    (∃ m : Option Int, x = m.map SEXP.int) ∨
      (∃ v, x = some v ∧ as_int v = .error .not_compatible) := by
  rcases x with _ | v
  · exact Or.inl ⟨none, rfl⟩
  · cases v
    · exact Or.inr ⟨_, rfl, rfl⟩
    · exact Or.inr ⟨_, rfl, rfl⟩
    · exact Or.inl ⟨some _, rfl⟩
    · exact Or.inr ⟨_, rfl, rfl⟩

theorem add_entry_inv (N : Native σ τ) (el : RList) (e : git_index_entry)
    (h : Index.add_entry N el = .ok e) :
    ∃ (p : Bytes) (o : git_oid) (m u g : Option Int),
      el.lookup "path" = some (.str p) ∧ el.lookup "oid" = some (.oid o) ∧
      el.lookup "mode" = m.map SEXP.int ∧ el.lookup "uid" = u.map SEXP.int ∧
      el.lookup "gid" = g.map SEXP.int ∧
      N.malloc (Index.add_size N (toInt32 (strlen (strcpy p)))) = true ∧
      e = built p o m u g := by
  rcases option_cases (el.lookup "path") with hp | ⟨vp, hp⟩
  · simp [Index.add_entry, contains_eq, hp, throw, throwThe, MonadExceptOf.throw, bind,
      Except.bind] at h
  rcases option_cases (el.lookup "oid") with ho | ⟨vo, ho⟩
  · simp [Index.add_entry, contains_eq, hp, ho, throw, throwThe, MonadExceptOf.throw, bind,
      Except.bind] at h
  rcases vp with _ | p | _ | _ <;> simp [Index.add_entry, contains_eq, get_eq, hp, ho,
    as_string, bind, Except.bind, pure, Except.pure] at h
  rcases vo with _ | _ | _ | o <;> simp [OID.from_sexp, bind, Except.bind, pure,
    Except.pure] at h
  rcases opt_int_cases (el.lookup "mode") with ⟨m, hm⟩ | ⟨vm, hm, hbm⟩
  swap
  · simp [hm, hbm] at h
  by_cases ha : N.malloc (Index.add_size N (toInt32 (strlen (strcpy p)))) = true
  swap
  · cases m <;> simp [hm, ha, as_int_int, throw, throwThe, MonadExceptOf.throw] at h
  rcases opt_int_cases (el.lookup "uid") with ⟨u, hu⟩ | ⟨vu, hu, hbu⟩
  swap
  · cases m <;> simp [hm, ha, hu, hbu, as_int_int] at h
  rcases opt_int_cases (el.lookup "gid") with ⟨g, hg⟩ | ⟨vg, hg, hbg⟩
  swap
  · cases m <;> cases u <;> simp [hm, ha, hu, hg, hbg, as_int_int] at h
  refine ⟨_, _, m, u, g, hp, ho, hm, hu, hg, ha, ?_⟩
  cases m <;> cases u <;> cases g <;> simp [hm, ha, hu, hg, as_int_int] at h <;>
    simp [← h, built, git_index_entry.zero, toUInt32_zero]

theorem toUInt32_toInt32 (n : Int) : toUInt32 (toInt32 n) = toUInt32 n := by
  unfold toUInt32 toInt32
  congr 1
  omega

theorem toUInt32_of_nonneg (v : Int) (h0 : 0 ≤ v) (h1 : v < 2 ^ 32) :
    toUInt32 v = v.toNat := by
  unfold toUInt32
  congr 1
  omega

theorem toUInt32_natCast (n : Nat) : toUInt32 (n : Int) = n % 2 ^ 32 := by
  unfold toUInt32
  omega

theorem name_flags (L : Nat) :
    toUInt16 (int_and (toInt32 (L : Int)) GIT_IDXENTRY_NAMEMASK) = L % 4096 := by
  have hmask : toUInt32 GIT_IDXENTRY_NAMEMASK = 2 ^ 12 - 1 := by decide
  unfold int_and
  rw [toUInt32_toInt32, toUInt32_natCast, hmask, Nat.and_pow_two_sub_one_eq_mod]
  have h1 : L % 2 ^ 32 % 2 ^ 12 = L % 4096 := by omega
  rw [h1]
  unfold toUInt16 toInt32
  simp only [Int.ofNat_eq_coe]
  omega

theorem strcpy_strcpy (p : Bytes) : strcpy (strcpy p) = strcpy p := by
  unfold strcpy
  exact List.takeWhile_idem

theorem strlen_strcpy (p : Bytes) : strlen (strcpy p) = strlen p := by
  unfold strlen
  rw [← strcpy, strcpy_strcpy]
  rfl

theorem strcpy_of_no_nul (p : Bytes) (h : ∀ b ∈ p, b ≠ 0) : strcpy p = p := by
  unfold strcpy
  rw [List.takeWhile_eq_self_iff]
  intro b hb
  simpa using h b hb

theorem strlen_of_no_nul (p : Bytes) (h : ∀ b ∈ p, b ≠ 0) : strlen p = p.length := by
  have := strcpy_of_no_nul p h
  unfold strcpy at this
  unfold strlen
  rw [this]

theorem path_lt_trans : ∀ (a b c : Bytes), path_lt a b = true → path_lt b c = true →
    path_lt a c = true
  | [], [], _, h, _ => by simp [path_lt] at h
  | [], _ :: _, [], _, h => by simp [path_lt] at h
  | [], _ :: _, _ :: _, _, _ => by simp [path_lt]
  | _ :: _, [], _, h, _ => by simp [path_lt] at h
  | _ :: _, _ :: _, [], _, h => by simp [path_lt] at h
  | x :: xs, y :: ys, z :: zs, h1, h2 => by
    simp only [path_lt, Bool.or_eq_true, Bool.and_eq_true, decide_eq_true_eq,
      beq_iff_eq] at h1 h2 ⊢
    rcases h1 with h1 | ⟨h1, h1r⟩ <;> rcases h2 with h2 | ⟨h2, h2r⟩
    · exact Or.inl (by omega)
    · exact Or.inl (by omega)
    · exact Or.inl (by omega)
    · exact Or.inr ⟨by omega, path_lt_trans xs ys zs h1r h2r⟩

theorem path_lt_total : ∀ (a b : Bytes), path_lt a b = false → path_lt b a = false → a = b
  | [], [], _, _ => rfl
  | [], _ :: _, h, _ => by simp [path_lt] at h
  | _ :: _, [], _, h => by simp [path_lt] at h
  | x :: xs, y :: ys, h1, h2 => by
    simp only [path_lt, Bool.or_eq_false_iff, Bool.and_eq_false_iff, decide_eq_false_iff_not,
      beq_eq_false_iff_ne] at h1 h2
    have hxy : x = y := by omega
    subst hxy
    have h1r : path_lt xs ys = false := by
      rcases h1.2 with h | h
      · exact absurd rfl h
      · exact h
    have h2r : path_lt ys xs = false := by
      rcases h2.2 with h | h
      · exact absurd rfl h
      · exact h
    rw [path_lt_total xs ys h1r h2r]

theorem key_lt_trans (a b c : Bytes × Nat) (h1 : key_lt a b = true) (h2 : key_lt b c = true) :
    key_lt a c = true := by
  simp only [key_lt, Bool.or_eq_true, Bool.and_eq_true, decide_eq_true_eq, beq_iff_eq] at *
  rcases h1 with h1 | ⟨h1, h1r⟩ <;> rcases h2 with h2 | ⟨h2, h2r⟩
  · exact Or.inl (path_lt_trans _ _ _ h1 h2)
  · exact Or.inl (h2 ▸ h1)
  · exact Or.inl (h1 ▸ h2)
  · exact Or.inr ⟨h1.trans h2, by omega⟩

theorem key_lt_total (a b : Bytes × Nat) (h1 : key_lt a b = false) (h2 : key_lt b a = false) :
    a = b := by
  simp only [key_lt, Bool.or_eq_false_iff, Bool.and_eq_false_iff, decide_eq_false_iff_not,
    beq_eq_false_iff_ne] at h1 h2
  have hp : a.1 = b.1 := path_lt_total _ _ h1.1 h2.1
  have hs : a.2 = b.2 := by
    rcases h1.2 with h | h
    · exact absurd hp h
    · rcases h2.2 with h' | h'
      · exact absurd hp.symm h'
      · omega
  exact Prod.ext hp hs

theorem mem_insert (e y : git_index_entry) :
    ∀ xs : List git_index_entry, y ∈ Spec.insert e xs → y = e ∨ y ∈ xs
  | [], h => by
    simp only [Spec.insert, List.mem_singleton] at h
    exact Or.inl h
  | x :: xs, h => by
    unfold Spec.insert at h
    split at h
    · rcases List.mem_cons.mp h with h | h
      · exact Or.inl h
      · exact Or.inr h
    · split at h
      · rcases List.mem_cons.mp h with h | h
        · exact Or.inr (h ▸ List.mem_cons_self _ _)
        · rcases mem_insert e y xs h with h | h
          · exact Or.inl h
          · exact Or.inr (List.mem_cons_of_mem _ h)
      · rcases List.mem_cons.mp h with h | h
        · exact Or.inl h
        · exact Or.inr (List.mem_cons_of_mem _ h)

theorem insert_sorted (e : git_index_entry) :
    ∀ xs : List git_index_entry, Sorted xs → Sorted (Spec.insert e xs)
  | [], _ => by simp [Spec.insert, Sorted]
  | x :: xs, h => by
    unfold Sorted at h
    rw [List.pairwise_cons] at h
    unfold Spec.insert
    by_cases h1 : key_lt e.key x.key = true
    · rw [if_pos h1]
      unfold Sorted
      refine List.pairwise_cons.mpr ⟨?_, List.pairwise_cons.mpr h⟩
      intro y hy
      rcases List.mem_cons.mp hy with hy | hy
      · exact hy ▸ h1
      · exact key_lt_trans _ _ _ h1 (h.1 y hy)
    · rw [if_neg h1]
      by_cases h2 : key_lt x.key e.key = true
      · rw [if_pos h2]
        unfold Sorted
        refine List.pairwise_cons.mpr ⟨?_, insert_sorted e xs h.2⟩
        intro y hy
        rcases mem_insert e y xs hy with hy | hy
        · exact hy ▸ h2
        · exact h.1 y hy
      · rw [if_neg h2]
        have hk : e.key = x.key :=
          key_lt_total _ _ (Bool.eq_false_iff.mpr h1) (Bool.eq_false_iff.mpr h2)
        unfold Sorted
        refine List.pairwise_cons.mpr ⟨?_, h.2⟩
        intro y hy
        rw [hk]
        exact h.1 y hy

theorem built_path_clean (p : Bytes) (o : git_oid) (m u g : Option Int) :
    strcpy (built p o m u g).path = (built p o m u g).path := by
  simp [built, strcpy_strcpy]

theorem add_step (rest : Native (List git_index_entry) τ) (ix : List git_index_entry)
    (el : RList) :
    (Index.add (Spec.native rest) ix el).2 = ix ∨
      ∃ e, Index.add_entry (Spec.native rest) el = .ok e ∧ strcpy e.path = e.path ∧
        (Index.add (Spec.native rest) ix el).2 = Spec.insert e ix := by
  unfold Index.add
  cases h : Index.add_entry (Spec.native rest) el with
  | error x => exact Or.inl rfl
  | ok e =>
    refine Or.inr ⟨e, rfl, ?_, ?_⟩
    · obtain ⟨p, o, m, u, g, -, -, -, -, -, -, he⟩ := add_entry_inv _ _ _ h
      rw [he]
      exact built_path_clean p o m u g
    · simp [Spec.native, Spec.git_index_add]

theorem add_all_invariant (rest : Native (List git_index_entry) τ) (els : List RList) :
    ∀ ix : List git_index_entry, Sorted ix → PathsClean ix →
      Sorted (Index.add_all (Spec.native rest) ix els) ∧
        PathsClean (Index.add_all (Spec.native rest) ix els) := by
  induction els with
  | nil => exact fun ix h1 h2 => ⟨h1, h2⟩
  | cons el els ih =>
    intro ix h1 h2
    simp only [Index.add_all, List.foldl_cons]
    rcases add_step rest ix el with h | ⟨e, -, hc, h⟩
    · rw [h]
      exact ih ix h1 h2
    · rw [h]
      refine ih _ (insert_sorted e ix h1) ?_
      intro y hy
      rcases mem_insert e y ix hy with hy | hy
      · exact hy ▸ hc
      · exact h2 y hy

theorem external_key_create (e : git_index_entry) :
    external_key (IndexEntry.create e) = some (strcpy e.path, stage_of_flags e.flags) := by
  rfl

theorem and_stagemask_of_lt (x : Nat) (h : x < 4096) : x &&& GIT_IDXENTRY_STAGEMASK = 0 := by
  have h1 : x &&& (2 ^ 12 - 1) = x := Nat.and_pow_two_sub_one_of_lt_two_pow (by omega)
  have h2 : (2 ^ 12 - 1) &&& GIT_IDXENTRY_STAGEMASK = 0 := by decide
  rw [← h1, Nat.and_assoc, h2, Nat.and_zero]

theorem built_flags (p : Bytes) (o : git_oid) (m u g : Option Int) :
    (built p o m u g).flags = strlen p % 4096 := by
  simp only [built]
  rw [name_flags, strlen_strcpy]

theorem get_by_index_model (rest : Native (List git_index_entry) τ)
    (ix : List git_index_entry) (n : Nat) :
    Index.get_by_index (Spec.native rest) ix n =
      match ix[n]? with
      | none => .error (.git "get by index")
      | some e => .ok (IndexEntry.create e) := by
  rfl

/-! ## The claims -/

/-- C1: an external entry that lacks a `path` element or lacks an `oid` element makes
`Index::add` raise the validation error "index entry must contain at least a path and oid"
before an entry is built (`Index.add_entry` raises), and the native index is left exactly
as it was, whatever the native library: `git_index_add` is not reached (a recording
library logs no call). -/
theorem add_missing_required (N : Native σ τ) (ix : σ) (el : RList)
    (h : containsElementNamed el "path" = false ∨ containsElementNamed el "oid" = false) :
    Index.add_entry N el =
        .error (.rcpp "index entry must contain at least a path and oid") ∧
      Index.add N ix el =
        (.error (.rcpp "index entry must contain at least a path and oid"), ix) ∧
      ∀ (status : Int) (log : List Call),
        (Index.add (Native.recording status) log el).2 = log := by
  have key : ∀ {σ' τ' : Type} (M : Native σ' τ'), Index.add_entry M el =
      .error (.rcpp "index entry must contain at least a path and oid") := by
    intro σ' τ' M
    unfold Index.add_entry
    rcases h with h | h <;>
      simp [h, throw, throwThe, MonadExceptOf.throw, bind, Except.bind]
  refine ⟨key N, ?_, ?_⟩
  · unfold Index.add
    rw [key N]
  · intro status log
    unfold Index.add
    rw [key (Native.recording status)]

/-- A witness of C1: an entry with an `oid` and no `path`. -/
theorem add_missing_required_witness :
    Index.add_entry (Native.inert Unit) [("oid", SEXP.oid (List.replicate 20 7))] =
        .error (.rcpp "index entry must contain at least a path and oid") ∧
      Index.add (Native.inert Unit) () [("oid", SEXP.oid (List.replicate 20 7))] =
        (.error (.rcpp "index entry must contain at least a path and oid"), ()) ∧
      ∀ (status : Int) (log : List Call),
        (Index.add (Native.recording status) log
          [("oid", SEXP.oid (List.replicate 20 7))]).2 = log :=
  add_missing_required (Native.inert Unit) () [("oid", SEXP.oid (List.replicate 20 7))]
    (Or.inl (by decide))

/-- C2: whenever `Index::add` builds an entry `e` from an external entry, it is `e` that
is handed to `git_index_add`, and `e` has mode 33188 (octal 100644) if no `mode` element is
given, uid 0 if no `uid` element is given and gid 0 if no `gid` element is given, each of
the three whatever the other optional elements are. -/
theorem add_defaults (N : Native σ τ) (el : RList) (e : git_index_entry)
    (h : Index.add_entry N el = .ok e) :
    (∀ ix : σ, Index.add N ix el =
        (if (N.git_index_add ix e).1 ≠ 0 then .error (.git "adding an index entry")
          else .ok (), (N.git_index_add ix e).2)) ∧
      (containsElementNamed el "mode" = false → e.mode = 33188) ∧
      (containsElementNamed el "uid" = false → e.uid = 0) ∧
      (containsElementNamed el "gid" = false → e.gid = 0) := by
  obtain ⟨p, o, m, u, g, -, -, hm, hu, hg, -, he⟩ := add_entry_inv N el e h
  refine ⟨?_, ?_, ?_, ?_⟩
  · intro ix
    unfold Index.add
    rw [h]
    by_cases hs : (N.git_index_add ix e).1 = 0 <;> simp [hs]
  · intro hc
    rw [contains_eq, hm] at hc
    cases m with
    | none => rw [he]; rfl
    | some v => simp at hc
  · intro hc
    rw [contains_eq, hu] at hc
    cases u with
    | none => rw [he]; rfl
    | some v => simp at hc
  · intro hc
    rw [contains_eq, hg] at hc
    cases g with
    | none => rw [he]; rfl
    | some v => simp at hc

/-- A witness of C2: path `a`, an object id and a `uid`, no `mode` and no `gid`. -/
theorem add_defaults_witness :
    (built [97] (List.replicate 20 7) none (some 1000) none).mode = 33188 ∧
      (built [97] (List.replicate 20 7) none (some 1000) none).uid = 1000 ∧
      ((∀ ix : Unit, Index.add (Native.inert Unit) ix
          [("path", SEXP.str [97]), ("oid", SEXP.oid (List.replicate 20 7)),
            ("uid", SEXP.int 1000)] =
        (if ((Native.inert Unit).git_index_add ix
              (built [97] (List.replicate 20 7) none (some 1000) none)).1 ≠ 0
          then .error (.git "adding an index entry")
          else .ok (), ((Native.inert Unit).git_index_add ix
              (built [97] (List.replicate 20 7) none (some 1000) none)).2)) ∧
      (containsElementNamed [("path", SEXP.str [97]), ("oid", SEXP.oid (List.replicate 20 7)),
            ("uid", SEXP.int 1000)] "mode" = false →
        (built [97] (List.replicate 20 7) none (some 1000) none).mode = 33188) ∧
      (containsElementNamed [("path", SEXP.str [97]), ("oid", SEXP.oid (List.replicate 20 7)),
            ("uid", SEXP.int 1000)] "uid" = false →
        (built [97] (List.replicate 20 7) none (some 1000) none).uid = 0) ∧
      (containsElementNamed [("path", SEXP.str [97]), ("oid", SEXP.oid (List.replicate 20 7)),
            ("uid", SEXP.int 1000)] "gid" = false →
        (built [97] (List.replicate 20 7) none (some 1000) none).gid = 0)) :=
  ⟨by decide, by decide,
    add_defaults (Native.inert Unit)
      [("path", SEXP.str [97]), ("oid", SEXP.oid (List.replicate 20 7)), ("uid", SEXP.int 1000)]
      (built [97] (List.replicate 20 7) none (some 1000) none) (by rfl)⟩

/-- C3 (against the reference model of the native index): for every index state and every
`n`, `Index::get_by_index(n)` returns the external form of the entry at 0-based position
`n` of the sorted entries when `n < entrycount()`, and raises the error "get by index" when
`n >= entrycount()`, so in particular for `n = entrycount()`. -/
theorem get_by_index_spec (rest : Native (List git_index_entry) τ)
    (ix : List git_index_entry) (n : Nat) :
    Index.get_by_index (Spec.native rest) ix n =
      if h : n < Index.entrycount (Spec.native rest) ix then
        .ok (IndexEntry.create (ix.get ⟨n, h⟩))
      else .error (.git "get by index") := by
  rw [get_by_index_model]
  simp only [Index.entrycount, Spec.native, Spec.git_index_entrycount]
  by_cases h : n < ix.length
  · rw [dif_pos h, List.getElem?_eq_getElem h]
    rfl
  · rw [dif_neg h, List.getElem?_eq_none (by omega)]

/-- C4 (against the reference model of the native index): starting from the empty index,
after any sequence of `Index::add` calls the entries are in strict ascending order by
(path, stage): for all `i < j < entrycount()`, `get_by_index(i)` and `get_by_index(j)`
both succeed and the key (path, stage) of the first result is strictly smaller than that
of the second. -/
theorem add_keeps_sorted (rest : Native (List git_index_entry) τ) (els : List RList)
    (i j : Nat) (hij : i < j)
    (hj : j < Index.entrycount (Spec.native rest) (Index.add_all (Spec.native rest) [] els)) :
    ∃ li lj ki kj,
      Index.get_by_index (Spec.native rest) (Index.add_all (Spec.native rest) [] els) i
          = .ok li ∧
        Index.get_by_index (Spec.native rest) (Index.add_all (Spec.native rest) [] els) j
          = .ok lj ∧
        external_key li = some ki ∧ external_key lj = some kj ∧ key_lt ki kj = true := by
  obtain ⟨hs, hc⟩ := add_all_invariant rest els [] List.Pairwise.nil
    (fun e he => absurd he (List.not_mem_nil e))
  generalize Index.add_all (Spec.native rest) [] els = ix at hs hc hj
  have hj' : j < ix.length := hj
  have hi' : i < ix.length := by omega
  refine ⟨IndexEntry.create (ix.get ⟨i, hi'⟩), IndexEntry.create (ix.get ⟨j, hj'⟩),
    (ix.get ⟨i, hi'⟩).key, (ix.get ⟨j, hj'⟩).key, ?_, ?_, ?_, ?_, ?_⟩
  · rw [get_by_index_model, List.getElem?_eq_getElem hi']
    rfl
  · rw [get_by_index_model, List.getElem?_eq_getElem hj']
    rfl
  · rw [external_key_create, hc _ (List.get_mem _ _ _)]
    rfl
  · rw [external_key_create, hc _ (List.get_mem _ _ _)]
    rfl
  · exact (List.pairwise_iff_getElem.mp hs) i j hi' hj' hij

/-- A witness of C4, the scenario of the specification: `add` of path `z`, then `add` of
path `a`; `get_by_index(0)` has path `a` and `get_by_index(1)` has path `z`. -/
theorem add_keeps_sorted_witness :
    ((Index.get_by_index (Spec.native (Native.inert _))
        (Index.add_all (Spec.native (Native.inert _)) []
          [[("path", SEXP.str [122]), ("oid", SEXP.oid (List.replicate 20 1))],
            [("path", SEXP.str [97]), ("oid", SEXP.oid (List.replicate 20 2))]]) 0).map
        (fun l => field l "path") = .ok (some (.sexp (.str [97])))) ∧
      (∃ li lj ki kj,
        Index.get_by_index (Spec.native (Native.inert _))
          (Index.add_all (Spec.native (Native.inert _)) []
            [[("path", SEXP.str [122]), ("oid", SEXP.oid (List.replicate 20 1))],
              [("path", SEXP.str [97]), ("oid", SEXP.oid (List.replicate 20 2))]]) 0
            = .ok li ∧
        Index.get_by_index (Spec.native (Native.inert _))
          (Index.add_all (Spec.native (Native.inert _)) []
            [[("path", SEXP.str [122]), ("oid", SEXP.oid (List.replicate 20 1))],
              [("path", SEXP.str [97]), ("oid", SEXP.oid (List.replicate 20 2))]]) 1
            = .ok lj ∧
        external_key li = some ki ∧ external_key lj = some kj ∧ key_lt ki kj = true) :=
  ⟨by rfl,
    add_keeps_sorted (Native.inert _)
      [[("path", SEXP.str [122]), ("oid", SEXP.oid (List.replicate 20 1))],
        [("path", SEXP.str [97]), ("oid", SEXP.oid (List.replicate 20 2))]] 0 1
      (by decide) (by decide)⟩

/-- A counterexample to C5 as stated: the external form of an entry has no element
labelled `stage`. -/
theorem create_has_no_stage :
    field (IndexEntry.create git_index_entry.zero) "stage" = none ∧
      "stage" ∉ labels (IndexEntry.create git_index_entry.zero) := by
  constructor
  · rfl
  · decide

/-- C5 (amended): for every native entry the external form `IndexEntry::create` produces has
exactly twelve labelled elements, `ctime`, `mtime`, `dev`, `ino`, `mode`, `uid`, `gid`,
`file_size`, `oid`, `flags`, `flags_extended` and `path`, each holding the field of that name,
and none labelled `stage`: the stage is carried only by the stage bits of `flags`. -/
theorem create_fields (e : git_index_entry) :
    labels (IndexEntry.create e) =
        ["ctime", "mtime", "dev", "ino", "mode", "uid", "gid", "file_size", "oid", "flags",
          "flags_extended", "path"] ∧
      field (IndexEntry.create e) "stage" = none ∧
      field (IndexEntry.create e) "path" = some (.sexp (.str (strcpy e.path))) ∧
      field (IndexEntry.create e) "mode" = some (.num e.mode) ∧
      field (IndexEntry.create e) "oid" = some (.sexp (OID.create e.id)) ∧
      field (IndexEntry.create e) "file_size" = some (.dbl e.file_size) ∧
      field (IndexEntry.create e) "ctime" = some (IndexEntry.index_time e.ctime) ∧
      field (IndexEntry.create e) "mtime" = some (IndexEntry.index_time e.mtime) ∧
      field (IndexEntry.create e) "dev" = some (.num e.dev) ∧
      field (IndexEntry.create e) "ino" = some (.num e.ino) ∧
      field (IndexEntry.create e) "uid" = some (.num e.uid) ∧
      field (IndexEntry.create e) "gid" = some (.num e.gid) ∧
      field (IndexEntry.create e) "flags" = some (.num e.flags) ∧
      field (IndexEntry.create e) "flags_extended" = some (.num e.flags_extended) ∧
      stage_of_flags e.flags = e.stage :=
  ⟨rfl, rfl, rfl, rfl, rfl, rfl, rfl, rfl, rfl, rfl, rfl, rfl, rfl, rfl, rfl⟩

/-- The failing input of C6: `git_index_clear` reports the failure status `-1`, and
`Index::clear` returns normally all the same. -/
theorem clear_ignores_status :
    ((Native.recording (-1)).git_index_clear []).1 = -1 ∧
      Index.clear (Native.recording (-1)) [] = (.ok (), [Call.clear]) :=
  ⟨rfl, rfl⟩

/-- Every method other than `clear` that calls the native library raises when the native
call reports a non-zero status. -/
theorem others_raise (N : Native σ τ) (ix : σ) :
    ((N.git_index_read ix 0).1 ≠ 0 → (Index.read N ix).1 = .error (.git "reading index")) ∧
      ((N.git_index_write ix).1 ≠ 0 →
        (Index.write N ix).1 = .error (.git "writing index")) ∧
      (∀ s t, N.Tree_from_sexp s = .ok t → (N.git_index_read_tree ix t).1 ≠ 0 →
        (Index.read_tree N ix s).1 = .error (.git "reading index tree")) ∧
      ((N.git_index_write_tree ix).1 ≠ 0 →
        (Index.write_tree N ix).1 = .error (.git "writing index tree")) ∧
      (∀ el e, Index.add_entry N el = .ok e → (N.git_index_add ix e).1 ≠ 0 →
        (Index.add N ix el).1 = .error (.git "adding an index entry")) ∧
      (∀ p, (N.git_index_add_bypath ix p).1 ≠ 0 →
        (Index.add_by_path N ix p).1 = .error (.git "add to index by path")) ∧
      (∀ p, (N.git_index_remove_bypath ix p).1 ≠ 0 →
        (Index.remove_by_path N ix p).1 = .error (.git "remove form index by path")) ∧
      (∀ p s, (N.git_index_remove_directory ix p s).1 ≠ 0 →
        (Index.remove_directory N ix p s).1 =
          .error (.git "remove directory from index")) := by
  refine ⟨?_, ?_, ?_, ?_, ?_, ?_, ?_, ?_⟩
  · intro h; simp [Index.read, h]
  · intro h; simp [Index.write, h]
  · intro s t ht h; simp [Index.read_tree, ht, h]
  · intro h; simp [Index.write_tree, h]
  · intro el e he h; simp [Index.add, he, h]
  · intro p h; simp [Index.add_by_path, h]
  · intro p h; simp [Index.remove_by_path, h]
  · intro p s h; simp [Index.remove_directory, h]

/-- A counterexample to C7 as stated: a recording native library sees `Index::read` call
`git_index_read` once, with the force argument `0`; no call with the force argument set is
made. -/
theorem read_never_forces :
    (Index.read (Native.recording 0) []).2 = [Call.read 0] ∧
      ¬ ∃ force : Int, force ≠ 0 ∧ Call.read force ∈ (Index.read (Native.recording 0) []).2 := by
  refine ⟨rfl, ?_⟩
  rintro ⟨force, hne, hmem⟩
  have h2 : (Index.read (Native.recording 0) []).2 = [Call.read 0] := rfl
  rw [h2, List.mem_singleton] at hmem
  injection hmem with h
  exact hne h

/-- C7 (amended): `Index::read` takes no force flag; whatever the native library and the
index, it calls `git_index_read` once with the force argument `0`, never set, so every read
may short-circuit on an unchanged file; it raises "reading index" exactly when that call
reports a non-zero status. -/
theorem read_force_zero (N : Native σ τ) (ix : σ) :
    Index.read N ix =
        (if (N.git_index_read ix 0).1 ≠ 0 then .error (.git "reading index") else .ok .null,
          (N.git_index_read ix 0).2) ∧
      ∀ (status : Int) (log : List Call),
        (Index.read (Native.recording status) log).2 = Call.read 0 :: log := by
  constructor
  · unfold Index.read
    by_cases h : (N.git_index_read ix 0).1 = 0 <;> simp [h]
  · intro status log
    unfold Index.read
    by_cases h : ((Native.recording status).git_index_read log 0).1 = 0 <;> simp [h] <;> rfl

/-- A counterexample to C8 as stated: an external entry with `mode = -1` is accepted; the
native library receives an entry whose mode is 4294967295. -/
theorem add_accepts_negative_mode :
    ∃ e : git_index_entry,
      Index.add (Native.recording 0) []
          [("path", SEXP.str [97]), ("oid", SEXP.oid (List.replicate 20 7)),
            ("mode", SEXP.int (-1))] = (.ok (), [Call.add e]) ∧
        e.mode = 4294967295 :=
  ⟨built [97] (List.replicate 20 7) (some (-1)) none none, by rfl, by decide⟩

/-- C8 (amended): `Index::add` checks no range.  For every external entry with a character
`path`, an `OID` reference `oid` and, where given, integer `mode`, `uid` and `gid` of any
value, negative ones included, and when the allocation succeeds, it raises no validation
error: it builds an entry whose `mode`, `uid` and `gid` are the given values reduced modulo
2^32 (33188, 0 and 0 for those not given) and hands it to `git_index_add`, whose status
alone decides the outcome. -/
theorem add_no_range_check (N : Native σ τ) (el : RList) (p : Bytes) (o : git_oid)
    (m u g : Option Int)
    (hp : el.lookup "path" = some (.str p)) (ho : el.lookup "oid" = some (.oid o))
    (hm : el.lookup "mode" = m.map SEXP.int) (hu : el.lookup "uid" = u.map SEXP.int)
    (hg : el.lookup "gid" = g.map SEXP.int)
    (ha : N.malloc (Index.add_size N (toInt32 (strlen p))) = true) :
    ∃ e : git_index_entry, Index.add_entry N el = .ok e ∧
      e.mode = ((m.getD 33188) % 2 ^ 32).toNat ∧
      e.uid = ((u.getD 0) % 2 ^ 32).toNat ∧
      e.gid = ((g.getD 0) % 2 ^ 32).toNat ∧
      ∀ ix : σ, Index.add N ix el =
        (if (N.git_index_add ix e).1 ≠ 0 then .error (.git "adding an index entry")
          else .ok (), (N.git_index_add ix e).2) := by
  have hb : Index.add_entry N el = .ok (built p o m u g) :=
    add_entry_ok N el p o m u g hp ho hm hu hg (by rw [strlen_strcpy]; exact ha)
  refine ⟨built p o m u g, hb, rfl, rfl, rfl, ?_⟩
  intro ix
  unfold Index.add
  rw [hb]
  by_cases hs : (N.git_index_add ix (built p o m u g)).1 = 0 <;> simp [hs]

/-- A witness of C8 (amended): `mode = -1`, `uid = -2`, no `gid`. -/
theorem add_no_range_check_witness :
    ∃ e : git_index_entry,
      Index.add_entry (Native.inert Unit)
          [("path", SEXP.str [97]), ("oid", SEXP.oid (List.replicate 20 7)),
            ("mode", SEXP.int (-1)), ("uid", SEXP.int (-2))] = .ok e ∧
      e.mode = (((some (-1) : Option Int).getD 33188) % 2 ^ 32).toNat ∧
      e.uid = (((some (-2) : Option Int).getD 0) % 2 ^ 32).toNat ∧
      e.gid = (((none : Option Int).getD 0) % 2 ^ 32).toNat ∧
      ∀ ix : Unit, Index.add (Native.inert Unit) ix
          [("path", SEXP.str [97]), ("oid", SEXP.oid (List.replicate 20 7)),
            ("mode", SEXP.int (-1)), ("uid", SEXP.int (-2))] =
        (if ((Native.inert Unit).git_index_add ix e).1 ≠ 0
          then .error (.git "adding an index entry")
          else .ok (), ((Native.inert Unit).git_index_add ix e).2) :=
  add_no_range_check (Native.inert Unit)
    [("path", SEXP.str [97]), ("oid", SEXP.oid (List.replicate 20 7)),
      ("mode", SEXP.int (-1)), ("uid", SEXP.int (-2))]
    [97] (List.replicate 20 7) (some (-1)) (some (-2)) none rfl rfl rfl rfl rfl rfl

/-- C9: when `Index::add` builds an entry `e` from an external entry whose path has `L`
bytes, `e.flags = L AND 0x0FFF = L mod 4096` and `e.flags_extended = 0`; the stage bits
(`0x3000`) and every bit above the 12-bit name mask are zero, so the entry is of stage 0;
the name length field is `L` itself when `L < 4096`, and it wraps for longer paths: a path of
4096 bytes gets the name length 0, not `0xFFF`. -/
theorem add_flags (N : Native σ τ) (el : RList) (e : git_index_entry) (p : Bytes)
    (h : Index.add_entry N el = .ok e) (hp : el.get "path" = .ok (.str p)) :
    e.flags = strlen p &&& 0x0FFF ∧
      e.flags = strlen p % 4096 ∧
      e.flags_extended = 0 ∧
      e.flags &&& GIT_IDXENTRY_STAGEMASK = 0 ∧
      e.stage = 0 ∧
      e.flags < 4096 ∧
      (strlen p < 4096 → e.flags = strlen p) ∧
      (strlen p = 4096 → e.flags = 0 ∧ e.flags ≠ 0xFFF) := by
  obtain ⟨p', o, m, u, g, hp', -, -, -, -, -, he⟩ := add_entry_inv N el e h
  rw [get_eq, hp'] at hp
  injection hp with hp
  injection hp with hp
  subst hp
  have hf : e.flags = strlen p' % 4096 := by
    rw [he, built_flags]
  have hlt : e.flags < 4096 := by omega
  have hst : e.flags &&& GIT_IDXENTRY_STAGEMASK = 0 := and_stagemask_of_lt _ hlt
  refine ⟨?_, hf, ?_, hst, ?_, hlt, ?_, ?_⟩
  · rw [hf]
    exact (Nat.and_pow_two_sub_one_eq_mod (strlen p') 12).symm
  · rw [he]
    rfl
  · unfold git_index_entry.stage
    rw [hst]
    rfl
  · intro hL
    omega
  · intro hL
    omega

/-- A witness of C9: the one-byte path `a`. -/
theorem add_flags_witness :
    (built [97] (List.replicate 20 7) none none none).flags = strlen [97] &&& 0x0FFF ∧
      (built [97] (List.replicate 20 7) none none none).flags = strlen [97] % 4096 ∧
      (built [97] (List.replicate 20 7) none none none).flags_extended = 0 ∧
      (built [97] (List.replicate 20 7) none none none).flags &&& GIT_IDXENTRY_STAGEMASK = 0 ∧
      (built [97] (List.replicate 20 7) none none none).stage = 0 ∧
      (built [97] (List.replicate 20 7) none none none).flags < 4096 ∧
      (strlen [97] < 4096 →
        (built [97] (List.replicate 20 7) none none none).flags = strlen [97]) ∧
      (strlen [97] = 4096 →
        (built [97] (List.replicate 20 7) none none none).flags = 0 ∧
          (built [97] (List.replicate 20 7) none none none).flags ≠ 0xFFF) :=
  add_flags (Native.inert Unit)
    [("path", SEXP.str [97]), ("oid", SEXP.oid (List.replicate 20 7))]
    (built [97] (List.replicate 20 7) none none none) [97] rfl rfl

/-- C10: the entry codec round trip.  For every external entry with a path `p` free of NUL
bytes, an object id `o` and, where given, integer `mode`, `uid` and `gid` in the range
0..2^31-1, and when the allocation succeeds, `Index::add` builds an entry whose external
form under `IndexEntry::create` has path `p`, oid `o`, the given mode (33188 if none), the
given uid and gid (0 if none), and `ctime`, `mtime`, `dev`, `ino`, `file_size` and
`flags_extended` all zero; `flags` is the length of `p` modulo 4096. -/
theorem add_create_round_trip (N : Native σ τ) (el : RList) (p : Bytes) (o : git_oid)
    (m u g : Option Int)
    (hp : el.lookup "path" = some (.str p)) (hnul : ∀ b ∈ p, b ≠ 0)
    (ho : el.lookup "oid" = some (.oid o))
    (hm : el.lookup "mode" = m.map SEXP.int) (hu : el.lookup "uid" = u.map SEXP.int)
    (hg : el.lookup "gid" = g.map SEXP.int)
    (hmr : ∀ v, m = some v → 0 ≤ v ∧ v < 2 ^ 31)
    (hur : ∀ v, u = some v → 0 ≤ v ∧ v < 2 ^ 31)
    (hgr : ∀ v, g = some v → 0 ≤ v ∧ v < 2 ^ 31)
    (ha : N.malloc (Index.add_size N (toInt32 (strlen p))) = true) :
    ∃ e : git_index_entry, Index.add_entry N el = .ok e ∧
      IndexEntry.create e =
        [("ctime", .datetime 0 0),
          ("mtime", .datetime 0 0),
          ("dev", .num 0),
          ("ino", .num 0),
          ("mode", .num (m.getD 33188).toNat),
          ("uid", .num (u.getD 0).toNat),
          ("gid", .num (g.getD 0).toNat),
          ("file_size", .dbl 0),
          ("oid", .sexp (.oid o)),
          ("flags", .num (p.length % 4096)),
          ("flags_extended", .num 0),
          ("path", .sexp (.str p))] := by
  have hb : Index.add_entry N el = .ok (built p o m u g) :=
    add_entry_ok N el p o m u g hp ho hm hu hg (by rw [strlen_strcpy]; exact ha)
  have hrange : ∀ (x : Option Int) (d : Int), 0 ≤ d → d < 2 ^ 31 →
      (∀ v, x = some v → 0 ≤ v ∧ v < 2 ^ 31) → toUInt32 (x.getD d) = (x.getD d).toNat := by
    intro x d hd0 hd1 hx
    apply toUInt32_of_nonneg
    · cases x with
      | none => exact hd0
      | some v => exact (hx v rfl).1
    · cases x with
      | none => simp only [Option.getD_none]; omega
      | some v => have := (hx v rfl).2; simp only [Option.getD_some]; omega
  refine ⟨built p o m u g, hb, ?_⟩
  have hflags := built_flags p o m u g
  rw [strlen_of_no_nul p hnul] at hflags
  have hmode : (built p o m u g).mode = (m.getD 33188).toNat :=
    hrange m 33188 (by decide) (by decide) hmr
  have huid : (built p o m u g).uid = (u.getD 0).toNat :=
    hrange u 0 (by decide) (by decide) hur
  have hgid : (built p o m u g).gid = (g.getD 0).toNat :=
    hrange g 0 (by decide) (by decide) hgr
  have hpath : strcpy (built p o m u g).path = p := by
    simp only [built, strcpy_strcpy]
    exact strcpy_of_no_nul p hnul
  unfold IndexEntry.create
  rw [hflags, hmode, huid, hgid, hpath]
  rfl

/-- A witness of C10: path `ab`, an object id, `mode = 33261` (octal 100755), `gid = 7`, no
`uid`. -/
theorem add_create_round_trip_witness :
    ∃ e : git_index_entry,
      Index.add_entry (Native.inert Unit)
          [("path", SEXP.str [97, 98]), ("oid", SEXP.oid (List.replicate 20 7)),
            ("mode", SEXP.int 33261), ("gid", SEXP.int 7)] = .ok e ∧
      IndexEntry.create e =
        [("ctime", .datetime 0 0),
          ("mtime", .datetime 0 0),
          ("dev", .num 0),
          ("ino", .num 0),
          ("mode", .num ((some 33261 : Option Int).getD 33188).toNat),
          ("uid", .num ((none : Option Int).getD 0).toNat),
          ("gid", .num ((some 7 : Option Int).getD 0).toNat),
          ("file_size", .dbl 0),
          ("oid", .sexp (.oid (List.replicate 20 7))),
          ("flags", .num ([97, 98].length % 4096)),
          ("flags_extended", .num 0),
          ("path", .sexp (.str [97, 98]))] :=
  add_create_round_trip (Native.inert Unit)
    [("path", SEXP.str [97, 98]), ("oid", SEXP.oid (List.replicate 20 7)),
      ("mode", SEXP.int 33261), ("gid", SEXP.int 7)]
    [97, 98] (List.replicate 20 7) (some 33261) none (some 7)
    rfl (by decide) rfl rfl rfl rfl
    (by intro v hv; injection hv with hv; subst hv; decide)
    (by intro v hv; cases hv)
    (by intro v hv; injection hv with hv; subst hv; decide)
    rfl

end Guitar
